import Mathlib

/-!
Verification development for the CS2_Arb market-snapshot service.

The definitions below are a shallow embedding of the Python sources:
  * `app/wear.py`          — wear-tier float ranges,
  * `app/market_name.py`   — canonical market-hash-name builder,
  * `app/history.py`       — 24h sales aggregation (pure part),
  * `app/csfloat_client.py`— snapshot resolver (fallback cascade, buy
    orders, history delegation), with the network boundary modelled as
    an explicit environment of oracle functions.

Python floats are modelled as exact rationals (`ℚ`), ints as `Int`
(`Nat` for the pure sale counter), fallible upstream calls as
`Except Unit`, and `None`-able values as `Option`.
-/

namespace CS2Arb

/-! ### String helpers (List Char based, mirroring Python str methods) -/

/-- `needle in hay` (Python substring test), on character lists. -/
def containsSub (needle : List Char) : List Char → Bool
  | [] => needle.isPrefixOf []
  | c :: cs => needle.isPrefixOf (c :: cs) || containsSub needle cs

/-- Python `str.replace(pat, repl, 1)`: replace the first occurrence only. -/
def replaceFirstL (pat repl : List Char) : List Char → List Char
  | [] => if pat.isPrefixOf ([] : List Char) then repl else []
  | c :: cs =>
    if pat.isPrefixOf (c :: cs) then repl ++ (c :: cs).drop pat.length
    else c :: replaceFirstL pat repl cs

/-- Python `str.lower()` (our alphabet is ASCII plus `★`/`™`, which
`Char.toLower` leaves unchanged, as Python does). -/
def strLower (s : String) : String := ⟨s.data.map Char.toLower⟩

/-- Python `str.strip()`. -/
def strTrim (s : String) : String :=
  ⟨((s.data.dropWhile Char.isWhitespace).reverse.dropWhile Char.isWhitespace).reverse⟩

/-- Python `str.startswith`. -/
def strStarts (s p : String) : Bool := p.data.isPrefixOf s.data

/-- Python `str.endswith`. -/
def strEnds (s p : String) : Bool := p.data.isSuffixOf s.data

/-- Python `sub in s`. -/
def strContainsS (s sub : String) : Bool := containsSub sub.data s.data

/-- Python `s.replace(pat, repl, 1)` on `String`. -/
def strReplaceFirst (s pat repl : String) : String :=
  ⟨replaceFirstL pat.data repl.data s.data⟩

/-! ### `app/wear.py` -/

inductive WearKey | fn | mw | ft | ww | bs
deriving DecidableEq

/-- `WEAR_RANGES` from `app/wear.py` (exact rationals for the floats). -/
def WEAR_RANGES : WearKey → ℚ × ℚ
  | .fn => (0, 7/100)
  | .mw => (7/100, 15/100)
  | .ft => (15/100, 38/100)
  | .ww => (38/100, 45/100)
  | .bs => (45/100, 1)

/-- `wear_bucket_range` from `app/wear.py`. -/
def wear_bucket_range (k : WearKey) : ℚ × ℚ := WEAR_RANGES k

/-! ### `app/market_name.py` -/

inductive CategoryKey | normal | stattrak | souvenir
deriving DecidableEq

/-- `WEAR_MAP` from `app/market_name.py` (the module first stores the
typo `"Battle-Scared"` for `bs` and immediately overwrites it with
`"Battle-Scarred"`; only the final value is observable). -/
def WEAR_MAP : WearKey → String
  | .fn => "Factory New"
  | .mw => "Minimal Wear"
  | .ft => "Field-Tested"
  | .ww => "Well-Worn"
  | .bs => "Battle-Scarred"

def STAR : String := "★"
def STATTRAK : String := "StatTrak™"
def SOUVENIR : String := "Souvenir"

/-- `FamilyRules` dataclass (the `notes` field is always defaulted and
unused; `has_star_prefix` is called `has_star` here). -/
structure FamilyRules where
  name : String
  supports_wear : Bool
  allows_stattrak : Bool
  allows_souvenir : Bool
  has_star : Bool
deriving DecidableEq

/-- The `FAMILIES` table. -/
def FAMILIES : List FamilyRules :=
  [⟨"knife",       true,  true,  false, true⟩,
   ⟨"gloves",      true,  false, false, true⟩,
   ⟨"weapon",      true,  true,  true,  false⟩,
   ⟨"music_kit",   false, true,  false, false⟩,
   ⟨"sticker",     false, false, false, false⟩,
   ⟨"patch",       false, false, false, false⟩,
   ⟨"agent",       false, false, false, false⟩,
   ⟨"graffiti",    false, false, false, false⟩,
   ⟨"charm",       false, false, false, false⟩,
   ⟨"collectible", false, false, false, false⟩,
   ⟨"case",        false, false, false, false⟩,
   ⟨"souvenir_pkg",false, false, false, false⟩,
   ⟨"tool",        false, false, false, false⟩,
   ⟨"pass",        false, false, false, false⟩,
   ⟨"gift",        false, false, false, false⟩]

def KNIFE_NAMES : List String :=
  ["Karambit", "Bayonet", "M9 Bayonet", "Flip Knife", "Gut Knife", "Huntsman Knife",
   "Falchion Knife", "Shadow Daggers", "Bowie Knife", "Ursus Knife", "Navaja Knife",
   "Stiletto Knife", "Talon Knife", "Skeleton Knife", "Paracord Knife", "Survival Knife",
   "Nomad Knife", "Classic Knife", "Kukri Knife"]

def GLOVE_NAMES : List String :=
  ["Sport Gloves", "Moto Gloves", "Specialist Gloves", "Driver Gloves",
   "Hand Wraps", "Hydra Gloves", "Bloodhound Gloves"]

/-- `_get`: look a family up by key, defaulting to weapon rules. -/
def famGet (key : String) : FamilyRules :=
  match FAMILIES.find? (fun f => f.name == key) with
  | some f => f
  | none => ⟨"weapon", true, true, true, false⟩

/-- `_lhs_item_name`: left side of `A | B` (or the whole name), trimmed. -/
def lhsItemName (s : String) : String :=
  if strContainsS s ("|") then strTrim ⟨s.data.takeWhile (fun c => c ≠ '|')⟩
  else strTrim s

/-- `_infer_family` from `app/market_name.py` (ordered pattern checks). -/
def inferFamily (base_name : String) : FamilyRules :=
  let n := strTrim base_name
  let low := strLower n
  let lhs := lhsItemName n
  if strStarts low ("music kit |") || strStarts low ("stattrak™ music kit |") then famGet ("music_kit")
  else if strStarts low ("sticker |") then famGet ("sticker")
  else if strStarts low ("patch |") then famGet ("patch")
  else if strStarts low ("sealed graffiti |") || strStarts low ("graffiti |") then famGet ("graffiti")
  else if strStarts low ("charm |") then famGet ("charm")
  else if strStarts low ("souvenir package") || strContainsS low ("souvenir package") then famGet ("souvenir_pkg")
  else if strEnds low (" case") || strEnds low (" case (old)") then famGet ("case")
  else if strContainsS low (" pin") || strContainsS low ("collectible") then famGet ("collectible")
  else if strContainsS low (" viewer pass") || strEnds low (" pass") then famGet ("pass")
  else if strContainsS low (" gift") then famGet ("gift")
  else if strStarts n (STAR ++ " ") then famGet ("knife")
  else if KNIFE_NAMES.contains lhs || strEnds lhs (" Knife") then famGet ("knife")
  else if GLOVE_NAMES.contains lhs then famGet ("gloves")
  else if strContainsS n (" | ") &&
      (["swat", "fbi", "phoenix", "cmdr.", "marshal", "soldier", "the professionals"].any
        (fun x => strContainsS low x)) then famGet ("agent")
  else famGet ("weapon")

/-- `_has_parentheses`. -/
def hasParens (name : String) : Bool :=
  strContainsS name ("(") && strContainsS name (")")

/-- `_already_prefixed`. -/
def alreadyPrefixed (name : String) : Bool :=
  let low := strTrim (strLower name)
  strStarts low ("stattrak") || strStarts low ("souvenir") || strStarts low (strLower STAR)

/-- `build_market_hash_name` from `app/market_name.py`. -/
def build_market_hash_name (base_name : String) (wear : Option WearKey)
    (category : Option CategoryKey) : String :=
  let name := strTrim base_name
  let fam := inferFamily name
  -- category normalization vs allowances
  let cat : CategoryKey := category.getD .normal
  let cat := if cat = .stattrak ∧ ¬fam.allows_stattrak then .normal else cat
  let cat := if cat = .souvenir ∧ ¬fam.allows_souvenir then .normal else cat
  let already := alreadyPrefixed name
  let name :=
    if fam.has_star then
      let name := if ¬strStarts name (STAR ++ " ") then STAR ++ " " ++ name else name
      if cat = .stattrak ∧ ¬strContainsS name STATTRAK then
        strReplaceFirst name (STAR ++ " ") (STAR ++ " " ++ STATTRAK ++ " ")
      else if cat ≠ .stattrak ∧ strContainsS name STATTRAK then
        strReplaceFirst name (STAR ++ " " ++ STATTRAK ++ " ") (STAR ++ " ")
      else name
    else
      if ¬already then
        if cat = .stattrak then STATTRAK ++ " " ++ name
        else if cat = .souvenir then SOUVENIR ++ " " ++ name
        else name
      else
        let name :=
          if cat = .stattrak ∧ ¬strContainsS name STATTRAK ∧ ¬strContainsS name SOUVENIR then
            STATTRAK ++ " " ++ name
          else name
        if cat = .souvenir ∧ ¬strContainsS name SOUVENIR ∧ ¬strContainsS name STATTRAK then
          SOUVENIR ++ " " ++ name
        else name
  -- wear suffix
  match wear with
  | some w =>
    if fam.supports_wear ∧ ¬hasParens name then name ++ " (" ++ WEAR_MAP w ++ ")"
    else name
  | none => name

/-! ### Defensive numeric parsing (`_as_int` over duck-typed payload values)

Upstream JSON values that the code feeds to `_as_int` are modelled by
`PVal`: an int, a float (exact rational; `int()` truncates toward zero),
a string together with the result of `int(...)` on it (`none` when the
parse raises), or some other value on which `int()` raises. -/

inductive PVal
  | int (n : Int)
  | float (q : ℚ)
  | str (parsed : Option Int)
  | other
deriving DecidableEq

/-- `int()` truncation toward zero on an exact rational. -/
def ratTrunc (q : ℚ) : Int := q.num.tdiv q.den

/-- `_as_int(x, default)` on a payload value. -/
def asPValInt (v : PVal) (d : Int) : Int :=
  match v with
  | .int n => n
  | .float q => ratTrunc q
  | .str (some n) => n
  | .str none => d
  | .other => d

/-- `_as_int(x, default)` where `x` may be a missing key / `None`. -/
def asOptPValInt (v : Option PVal) (d : Int) : Int :=
  match v with
  | some pv => asPValInt pv d
  | none => d

/-- `isinstance(x, (int, float, str))`. -/
def pvalTypeOk : Option PVal → Bool
  | some (.int _) => true
  | some (.float _) => true
  | some (.str _) => true
  | _ => false

/-! ### Floatability (`_item_supports_float`, identical keyword denylist
in `app/csfloat_client.py` and `app/history.py`) -/

def NON_FLOAT_KEYWORDS : List String :=
  ["music kit", "sticker", "patch", "agent", "graffiti",
   "case", "collectible", "pin", "key", "viewer pass", "souvenir package",
   "charm", "gift"]

def item_supports_float (name : String) : Bool :=
  let low := strLower name
  ¬(NON_FLOAT_KEYWORDS.any (fun k => strContainsS low k))

/-! ### `app/history.py` — sale events and 24h aggregation (pure part)

`fetch_sales_history` is network I/O; the aggregation below takes the
fetched event list (and the evaluation instant `now`, in seconds since
epoch) as inputs.  A parsed timestamp is a `PTime`: the absolute time
in seconds plus whether the parsed datetime carried timezone info
(`_parse_iso` can return naive datetimes, which the loop discards).
`none` for a timestamp field means missing or unparseable. -/

structure PTime where
  time : Int
  hasTz : Bool
deriving DecidableEq

/-- The nested `event["item"]` attributes used by the client-side
filters.  `float_value` is `none` when the field is missing or does not
parse as a float (both make `_wear_ok` return `False`). -/
structure SaleItem where
  is_stattrak : Bool
  is_souvenir : Bool
  float_value : Option ℚ
deriving DecidableEq

structure SaleEvent where
  state : Option String
  sold_at : Option PTime
  created_at : Option PTime
  item : Option SaleItem
  price : Option PVal
deriving DecidableEq

/-- `_cat_ok` from `compute_sales_24h_metrics`. -/
def catOkB (category : Option Int) (it : SaleItem) : Bool :=
  match category with
  | none => true
  | some c =>
    let cc : Int := if it.is_souvenir then 3 else if it.is_stattrak then 2 else 1
    cc == c

/-- `_wear_ok` from `compute_sales_24h_metrics` (membership is
`lo <= fv < hi` for every bucket). -/
def wearOkB (wear_bucket : Option (ℚ × ℚ)) (it : SaleItem) : Bool :=
  match wear_bucket with
  | none => true
  | some lohi =>
    match it.float_value with
    | none => false
    | some fv => decide (lohi.1 ≤ fv) && decide (fv < lohi.2)

/-- One iteration of the aggregation loop (the chain of `continue`s). -/
def salesStep (wear_bucket : Option (ℚ × ℚ)) (category : Option Int)
    (now lb_seconds : Int) (acc : ℕ × ℚ) (e : SaleEvent) : ℕ × ℚ :=
  let state := strLower (e.state.getD "")
  if state ≠ "" ∧ state ≠ "sold" then acc
  else
    match e.sold_at.or e.created_at with
    | none => acc
    | some ts =>
      if ¬ts.hasTz then acc
      else if now - ts.time > lb_seconds then acc
      else
        let it := e.item.getD ⟨false, false, none⟩
        if ¬(catOkB category it ∧ wearOkB wear_bucket it) then acc
        else
          match e.price with
          | none => acc
          | some pv =>
            let price_cents := asPValInt pv 0
            if price_cents ≤ 0 then acc
            else (acc.1 + 1, acc.2 + (price_cents : ℚ) / 100)

/-- `compute_sales_24h_metrics` from `app/history.py`, with the fetched
event list supplied.  Returns `(vol24h, asp24h_usd)`. -/
def compute_sales_24h_metrics (name : String) (wear_bucket0 : Option (ℚ × ℚ))
    (category : Option Int) (lookback_hours : Int) (now : Int)
    (events : List SaleEvent) : ℕ × ℚ :=
  let wear_bucket := if item_supports_float name then wear_bucket0 else none
  if events.isEmpty then (0, 0)
  else
    let lb_seconds := lookback_hours * 3600
    let vt := events.foldl (salesStep wear_bucket category now lb_seconds) (0, 0)
    (vt.1, if vt.1 > 0 then vt.2 / (vt.1 : ℚ) else 0)

/-! ### `app/csfloat_client.py` — listings, buy orders, snapshot resolver -/

/-- The `Listing` dataclass (field values already mapped by
`map_listing`). -/
structure Listing where
  id : Option String
  market_hash_name : String
  price_usd : ℚ
  float_value : Option ℚ
  state : Option String
  paint_seed : Option Int
deriving DecidableEq

/-- A raw buy-order row: the `price` and `qty` payload values. -/
structure Order where
  price : Option PVal
  qty : Option PVal
deriving DecidableEq

/-- `highest_bid_from_orders`: `(highest_bid_usd, qty_at_top)` or `none`. -/
def highest_bid_from_orders (orders : List Order) : Option (ℚ × Int) :=
  if orders.isEmpty then none
  else
    let clean := orders.filter (fun o => pvalTypeOk o.price)
    if clean.isEmpty then none
    else
      let cents := clean.map (fun o => asOptPValInt o.price 0)
      match cents.max? with
      | none => none
      | some top_cents =>
        let qty_top :=
          ((clean.filter (fun o => asOptPValInt o.price 0 == top_cents)).map
            (fun o => asOptPValInt (some (o.qty.getD (.int 0))) 0)).sum
        some ((top_cents : ℚ) / 100, qty_top)

/-- The Market Data Source boundary: `_first_listing` (name, sort_by,
category, wear bucket — returns the cheapest offer of the first page, if
any), `fetch_buy_orders_for_listing` (listing id, limit) and
`fetch_sales_history` (name, limit); the latter two may raise. -/
structure Env where
  firstListing : String → String → Option Int → Option (ℚ × ℚ) → Option Listing
  buyOrders : String → Nat → Except Unit (List Order)
  salesHistory : String → Nat → Except Unit (List SaleEvent)

/-- Cascade bookkeeping: `lowest`, `source`, `used_cat`, `used_wear`. -/
structure CascadeSt where
  lowest : Option Listing
  source : String
  used_cat : Option Int
  used_wear : Option (ℚ × ℚ)
deriving DecidableEq

/-- A stage query: the `(category, wear_bucket)` filters passed to
`_first_listing` (the name and `sort_by="lowest_price"` are fixed
throughout one cascade). -/
abbrev StageQ := Option Int × Option (ℚ × ℚ)

/-- Stage 4 of the cascade: name only. -/
def cascade4 (F : Option Int → Option (ℚ × ℚ) → Option Listing) :
    CascadeSt × List StageQ :=
  match F none none with
  | some l => (⟨some l, "name_only", none, none⟩, [(none, none)])
  | none => (⟨none, "n/a", none, none⟩, [(none, none)])

/-- Stage 3 (relax category; wear reinstated only if floatable), run
only when a category filter was requested. -/
def cascade3 (F : Option Int → Option (ℚ × ℚ) → Option Listing)
    (category : Option Int) (supports_float : Bool)
    (requested_wear : Option (ℚ × ℚ)) : CascadeSt × List StageQ :=
  match category with
  | some _ =>
    let w3 := if supports_float then requested_wear else none
    (match F none w3 with
     | some l => (⟨some l, "no_cat(name+wear)", none, w3⟩, [((none : Option Int), w3)])
     | none =>
       let r := cascade4 F
       (r.1, ((none : Option Int), w3) :: r.2))
  | none => cascade4 F

/-- Stage 2 (relax wear), run only when a wear filter was in effect. -/
def cascade2 (F : Option Int → Option (ℚ × ℚ) → Option Listing)
    (category : Option Int) (wear_bucket : Option (ℚ × ℚ))
    (supports_float : Bool) (requested_wear : Option (ℚ × ℚ)) :
    CascadeSt × List StageQ :=
  match wear_bucket with
  | some _ =>
    (match F category none with
     | some l => (⟨some l, "no_wear(name+cat)", category, none⟩, [(category, (none : Option (ℚ × ℚ)))])
     | none =>
       let r := cascade3 F category supports_float requested_wear
       (r.1, (category, (none : Option (ℚ × ℚ))) :: r.2))
  | none => cascade3 F category supports_float requested_wear

/-- The four-stage fallback cascade of `fetch_snapshot_metrics`
(strict → no wear → no category → name only), also returning the list
of issued stage queries in order. -/
def cascade (F : Option Int → Option (ℚ × ℚ) → Option Listing)
    (category : Option Int) (wear_bucket : Option (ℚ × ℚ))
    (supports_float : Bool) (requested_wear : Option (ℚ × ℚ)) :
    CascadeSt × List StageQ :=
  match F category wear_bucket with
  | some l => (⟨some l, "strict(name+cat+wear)", category, wear_bucket⟩, [(category, wear_bucket)])
  | none =>
    let r := cascade2 F category wear_bucket supports_float requested_wear
    (r.1, (category, wear_bucket) :: r.2)

/-- The produced snapshot record (the dict returned by
`fetch_snapshot_metrics`; `used_name_variant` is the key optionally
added by `fetch_snapshot_by_params`). -/
structure Snap where
  source : String
  lowest_ask : ℚ
  lowest_ask_id : Option String
  highest_bid : Option ℚ
  highest_bid_qty : Option Int
  vol24h : ℕ
  asp24h : ℚ
  used_category : Option Int
  used_wear : Option (ℚ × ℚ)
  is_floatable : Bool
  used_name_variant : Option String
deriving DecidableEq

/-- The calls a snapshot computation makes: cascade stage queries,
buy-order fetches (id, limit), and history-aggregation invocations
(name, wear filter, category filter). -/
structure Trace where
  listings : List StageQ
  orders : List (String × Nat)
  history : List (String × Option (ℚ × ℚ) × Option Int)
deriving DecidableEq

/-- `fetch_snapshot_metrics` from `app/csfloat_client.py`. -/
def fetch_snapshot_metrics (env : Env) (now : Int) (name : String)
    (category : Option Int) (wear_bucket0 : Option (ℚ × ℚ)) : Snap × Trace :=
  let supports_float := item_supports_float name
  let requested_wear := wear_bucket0
  let wear_bucket := if supports_float then wear_bucket0 else none
  let c := cascade (env.firstListing name ("lowest_price")) category wear_bucket
    supports_float requested_wear
  let st := c.1
  -- highest bid (failures swallowed)
  let bid : Option ℚ × Option Int × List (String × Nat) :=
    match st.lowest with
    | none => (none, none, [])
    | some l =>
      match l.id with
      | none => (none, none, [])
      | some lid =>
        if lid = "" then (none, none, [])
        else
          match env.buyOrders lid 10 with
          | .error _ => (none, none, [(lid, 10)])
          | .ok orders =>
            match highest_bid_from_orders orders with
            | none => (none, none, [(lid, 10)])
            | some bq => (some bq.1, some bq.2, [(lid, 10)])
  -- sales 24h: original category intent; wear only if floatable
  let history_wear := if supports_float then requested_wear else none
  let history_cat := category
  let hist : ℕ × ℚ :=
    match env.salesHistory name 400 with
    | .error _ => (0, 0)
    | .ok events => compute_sales_24h_metrics name history_wear history_cat 24 now events
  (⟨st.source,
    (match st.lowest with | some l => l.price_usd | none => 0),
    (match st.lowest with | some l => l.id | none => some ""),
    bid.1, bid.2.1,
    hist.1, hist.2,
    st.used_cat, st.used_wear,
    supports_float, none⟩,
   ⟨c.2, bid.2.2, [(name, history_wear, history_cat)]⟩)

/-- `_CATEGORY_MAP`. -/
def categoryCode : CategoryKey → Int
  | .normal => 1
  | .stattrak => 2
  | .souvenir => 3

/-- The normal ↔ stattrak swap of the alternate-name retry. -/
def altCategoryKey : Option CategoryKey → Option CategoryKey
  | some .stattrak => some .normal
  | some .normal => some .stattrak
  | _ => none

/-- The primary attempt's wear bucket: the wear range when a wear key
was supplied and the primary name is floatable, else `none`
(`wear_bucket_range(wear_key) if (wear_key and _item_supports_float(name_primary)) else None`). -/
def bpWearBucket (name_primary : String) (wear_key : Option WearKey) : Option (ℚ × ℚ) :=
  match wear_key with
  | some w => if item_supports_float name_primary then some (wear_bucket_range w) else none
  | none => none

/-- `fetch_snapshot_by_params` from `app/csfloat_client.py`, also
returning the `(name, category, wear_bucket)` arguments of each
`fetch_snapshot_metrics` invocation it makes, in order. -/
def fetch_snapshot_by_params (env : Env) (now : Int) (base_name : String)
    (wear_key : Option WearKey) (category_key : Option CategoryKey) :
    Snap × List (String × Option Int × Option (ℚ × ℚ)) :=
  let name_primary := build_market_hash_name base_name wear_key category_key
  let cat_primary := category_key.map categoryCode
  let wear_bucket : Option (ℚ × ℚ) := bpWearBucket name_primary wear_key
  let snap := (fetch_snapshot_metrics env now name_primary cat_primary wear_bucket).1
  if snap.lowest_ask > 0 ∨ snap.vol24h > 0 then
    (snap, [(name_primary, cat_primary, wear_bucket)])
  else
    match altCategoryKey category_key with
    | none => (snap, [(name_primary, cat_primary, wear_bucket)])
    | some alt_ck =>
      let name_alt := build_market_hash_name base_name wear_key (some alt_ck)
      let wear_bucket_alt := if item_supports_float name_alt then wear_bucket else none
      let snap_alt := (fetch_snapshot_metrics env now name_alt none wear_bucket_alt).1
      if snap_alt.lowest_ask > 0 ∨ snap_alt.vol24h > 0 then
        ({ snap_alt with used_name_variant := some name_alt },
         [(name_primary, cat_primary, wear_bucket), (name_alt, none, wear_bucket_alt)])
      else
        (snap, [(name_primary, cat_primary, wear_bucket), (name_alt, none, wear_bucket_alt)])

/-! ### Specification-side view of the cascade

The spec describes the cascade as an ordered list of stage descriptors,
iterated until one yields a result.  `c1StagesL` is that list for a
given requested category and effective wear filter (a stage that has
nothing to relax — no wear filter in effect, or no category filter
requested — does not occur in the list), each stage paired with its
`source` label.  `takeThroughHit`, `firstHit` and `firstHitLabel` read
off the issued-query prefix, the winning offer and the recorded label. -/

abbrev StageL := StageQ × String

def c1TailL3 (cat : Option Int) (wEff : Option (ℚ × ℚ)) : List StageL :=
  (match cat with
   | some _ => [(((none : Option Int), wEff), "no_cat(name+wear)")]
   | none => []) ++
  [(((none : Option Int), (none : Option (ℚ × ℚ))), "name_only")]

def c1TailL2 (cat : Option Int) (wEff : Option (ℚ × ℚ)) : List StageL :=
  (match wEff with
   | some _ => [((cat, (none : Option (ℚ × ℚ))), "no_wear(name+cat)")]
   | none => []) ++ c1TailL3 cat wEff

def c1StagesL (cat : Option Int) (wEff : Option (ℚ × ℚ)) : List StageL :=
  ((cat, wEff), "strict(name+cat+wear)") :: c1TailL2 cat wEff

/-- The queries a stage-list traversal issues: every stage up to and
including the first one whose query returns an offer (all of them when
none does). -/
def takeThroughHit (F : Option Int → Option (ℚ × ℚ) → Option Listing) :
    List StageL → List StageQ
  | [] => []
  | s :: ss =>
    match F s.1.1 s.1.2 with
    | some _ => [s.1]
    | none => s.1 :: takeThroughHit F ss

/-- The offer of the first non-empty stage. -/
def firstHit (F : Option Int → Option (ℚ × ℚ) → Option Listing) :
    List StageL → Option Listing
  | [] => none
  | s :: ss =>
    match F s.1.1 s.1.2 with
    | some l => some l
    | none => firstHit F ss

/-- The label of the first non-empty stage, `"n/a"` when none hits. -/
def firstHitLabel (F : Option Int → Option (ℚ × ℚ) → Option Listing) :
    List StageL → String
  | [] => "n/a"
  | s :: ss =>
    match F s.1.1 s.1.2 with
    | some _ => s.2
    | none => firstHitLabel F ss

theorem cascade4_spec (F : Option Int → Option (ℚ × ℚ) → Option Listing) :
    (cascade4 F).2 = takeThroughHit F [(((none : Option Int), (none : Option (ℚ × ℚ))), "name_only")] ∧
    (cascade4 F).1.lowest = firstHit F [(((none : Option Int), (none : Option (ℚ × ℚ))), "name_only")] ∧
    (cascade4 F).1.source = firstHitLabel F [(((none : Option Int), (none : Option (ℚ × ℚ))), "name_only")] := by
  cases h : F none none <;>
    simp [cascade4, takeThroughHit, firstHit, firstHitLabel, h]

theorem cascade3_spec (F : Option Int → Option (ℚ × ℚ) → Option Listing)
    (cat : Option Int) (sf : Bool) (rw : Option (ℚ × ℚ)) :
    (cascade3 F cat sf rw).2 = takeThroughHit F (c1TailL3 cat (if sf then rw else none)) ∧
    (cascade3 F cat sf rw).1.lowest = firstHit F (c1TailL3 cat (if sf then rw else none)) ∧
    (cascade3 F cat sf rw).1.source = firstHitLabel F (c1TailL3 cat (if sf then rw else none)) := by
  obtain ⟨h2, h3, h4⟩ := cascade4_spec F
  cases cat with
  | none => simpa [cascade3, c1TailL3] using ⟨h2, h3, h4⟩
  | some c =>
    cases h : F none (if sf then rw else none) <;>
      simp [cascade3, c1TailL3, takeThroughHit, firstHit, firstHitLabel, h, h2, h3, h4]

theorem cascade2_spec (F : Option Int → Option (ℚ × ℚ) → Option Listing)
    (cat : Option Int) (wb : Option (ℚ × ℚ)) (sf : Bool) (rw : Option (ℚ × ℚ))
    (hwb : wb = if sf then rw else none) :
    (cascade2 F cat wb sf rw).2 = takeThroughHit F (c1TailL2 cat wb) ∧
    (cascade2 F cat wb sf rw).1.lowest = firstHit F (c1TailL2 cat wb) ∧
    (cascade2 F cat wb sf rw).1.source = firstHitLabel F (c1TailL2 cat wb) := by
  obtain ⟨h2, h3, h4⟩ := cascade3_spec F cat sf rw
  rw [← hwb] at h2 h3 h4
  cases wb with
  | none => simpa [cascade2, c1TailL2] using ⟨h2, h3, h4⟩
  | some w =>
    cases h : F cat none <;>
      simp [cascade2, c1TailL2, takeThroughHit, firstHit, firstHitLabel, h, h2, h3, h4]

theorem cascade_spec (F : Option Int → Option (ℚ × ℚ) → Option Listing)
    (cat : Option Int) (wb : Option (ℚ × ℚ)) (sf : Bool) (rw : Option (ℚ × ℚ))
    (hwb : wb = if sf then rw else none) :
    (cascade F cat wb sf rw).2 = takeThroughHit F (c1StagesL cat wb) ∧
    (cascade F cat wb sf rw).1.lowest = firstHit F (c1StagesL cat wb) ∧
    (cascade F cat wb sf rw).1.source = firstHitLabel F (c1StagesL cat wb) := by
  obtain ⟨h2, h3, h4⟩ := cascade2_spec F cat wb sf rw hwb
  cases h : F cat wb <;>
    simp [cascade, c1StagesL, takeThroughHit, firstHit, firstHitLabel, h, h2, h3, h4]

theorem firstHit_of_allEmpty (F : Option Int → Option (ℚ × ℚ) → Option Listing)
    (hF : ∀ c w, F c w = none) : ∀ L : List StageL, firstHit F L = none := by
  intro L
  induction L with
  | nil => rfl
  | cons s ss ih => simp [firstHit, hF, ih]

theorem firstHitLabel_of_allEmpty (F : Option Int → Option (ℚ × ℚ) → Option Listing)
    (hF : ∀ c w, F c w = none) : ∀ L : List StageL, firstHitLabel F L = "n/a" := by
  intro L
  induction L with
  | nil => rfl
  | cons s ss ih => simp [firstHitLabel, hF, ih]

theorem firstHitLabel_mem (F : Option Int → Option (ℚ × ℚ) → Option Listing)
    (L : List StageL) :
    firstHitLabel F L = "n/a" ∨ firstHitLabel F L ∈ L.map Prod.snd := by
  induction L with
  | nil => exact Or.inl rfl
  | cons s ss ih =>
    cases h : F s.1.1 s.1.2 with
    | none =>
      rcases ih with h1 | h1
      · exact Or.inl (by simpa [firstHitLabel, h] using h1)
      · exact Or.inr (by simp [firstHitLabel, h]; right; simpa using h1)
    | some l => exact Or.inr (by simp [firstHitLabel, h])

/-! ### Wear-partition membership (spec convention)

The spec reads the five ranges as half-open `[lo, hi)`, with the top
(Battle-Scarred) range closed at `1.0`. -/

def wearMem (k : WearKey) (x : ℚ) : Prop :=
  (WEAR_RANGES k).1 ≤ x ∧
    (match k with
     | .bs => x ≤ (WEAR_RANGES k).2
     | _ => x < (WEAR_RANGES k).2)

theorem wearMem_unique {k k2 : WearKey} {x : ℚ} (h : wearMem k x) (h2 : wearMem k2 x) :
    k = k2 := by
  cases k <;> cases k2 <;> try rfl
  all_goals
    (exfalso
     simp only [wearMem, WEAR_RANGES] at h h2
     obtain ⟨a, b⟩ := h
     obtain ⟨c, d⟩ := h2
     linarith)

theorem wear_partition_exists {x : ℚ} (h0 : 0 ≤ x) (h1 : x ≤ 1) : ∃ k, wearMem k x := by
  by_cases hfn : x < 7/100
  · exact ⟨.fn, h0, hfn⟩
  by_cases hmw : x < 15/100
  · refine ⟨.mw, ?_, hmw⟩
    show (7/100 : ℚ) ≤ x
    linarith
  by_cases hft : x < 38/100
  · refine ⟨.ft, ?_, hft⟩
    show (15/100 : ℚ) ≤ x
    linarith
  by_cases hww : x < 45/100
  · refine ⟨.ww, ?_, hww⟩
    show (38/100 : ℚ) ≤ x
    linarith
  · refine ⟨.bs, ?_, h1⟩
    show (45/100 : ℚ) ≤ x
    linarith

/-- C7: the five wear ranges are pairwise non-overlapping and jointly
cover `[0, 1]` — every float in `[0, 1]` lies in exactly one wear key's
range, half-open `[lo, hi)` except Battle-Scarred which is closed at
`1.0` — and the `ft` lookup returns `(0.15, 0.38)`. -/
theorem wear_ranges_partition (x : ℚ) (h0 : 0 ≤ x) (h1 : x ≤ 1) :
    (∃! k : WearKey, wearMem k x) ∧ wear_bucket_range .ft = (0.15, 0.38) := by
  refine ⟨?_, by norm_num [wear_bucket_range, WEAR_RANGES]⟩
  obtain ⟨k, hk⟩ := wear_partition_exists h0 h1
  exact ⟨k, hk, fun y hy => wearMem_unique hy hk⟩

/-- Witness for `wear_ranges_partition` at `x = 1/2`. -/
theorem wear_ranges_partition_witness :
    (∃! k : WearKey, wearMem k (1/2)) ∧ wear_bucket_range .ft = (0.15, 0.38) :=
  wear_ranges_partition (1/2) (by norm_num) (by norm_num)

/-- C5: the spec's worked examples of canonical-name composition.  The
Karambit is classified as a knife from the left-hand name alone, gains
the star prefix, and the StatTrak™ marker lands right after the star. -/
theorem build_worked_examples :
    build_market_hash_name ("AK-47 | Redline") (some .ft) (some .normal) =
      "AK-47 | Redline (Field-Tested)" ∧
    build_market_hash_name ("Karambit | Doppler") (some .fn) (some .stattrak) =
      "★ StatTrak™ Karambit | Doppler (Factory New)" ∧
    (inferFamily ("Karambit | Doppler")).name = "knife" ∧
    (inferFamily ("Karambit | Doppler")).has_star = true ∧
    strStarts (build_market_hash_name ("Karambit | Doppler") (some .fn) (some .stattrak))
      (STAR ++ " " ++ STATTRAK ++ " ") = true := by
  refine ⟨by decide, by decide, by decide, by decide, by decide⟩

/-- C2 (code bug): `build` is not idempotent.  `"Sport Gloves | Vice"`
is classified as gloves (`allows_stattrak = false`, so no StatTrak™ is
added), but its canonical output starts with the star glyph, which the
classifier reads as a knife — a family that does allow StatTrak™ — so
re-running `build` with category `stattrak` inserts the marker into a
glove name, contradicting both the family table and the documented
idempotence. -/
theorem build_idempotence_failure :
    build_market_hash_name ("Sport Gloves | Vice") none (some .stattrak) =
      "★ Sport Gloves | Vice" ∧
    build_market_hash_name
        (build_market_hash_name ("Sport Gloves | Vice") none (some .stattrak))
        none (some .stattrak) =
      "★ StatTrak™ Sport Gloves | Vice" ∧
    (inferFamily ("Sport Gloves | Vice")).allows_stattrak = false ∧
    build_market_hash_name
        (build_market_hash_name ("Sport Gloves | Vice") none (some .stattrak))
        none (some .stattrak) ≠
      build_market_hash_name ("Sport Gloves | Vice") none (some .stattrak) := by
  refine ⟨by decide, by decide, by decide, by decide⟩

/-- C1: `fetch_snapshot_metrics` works through the stage list — strict,
wear relaxed (when a wear filter was in effect), category relaxed with
wear reinstated only if the name is floatable (when a category filter
was requested), name only — issuing each stage's query exactly when all
earlier stages returned no offer, and taking the offer of the first
non-empty stage without querying any later stage. -/
theorem cascade_first_nonempty_stage (env : Env) (now : Int) (name : String)
    (category : Option Int) (wear_bucket : Option (ℚ × ℚ)) :
    (fetch_snapshot_metrics env now name category wear_bucket).2.listings =
      takeThroughHit (env.firstListing name ("lowest_price"))
        (c1StagesL category (if item_supports_float name then wear_bucket else none)) ∧
    (fetch_snapshot_metrics env now name category wear_bucket).1.lowest_ask =
      (match firstHit (env.firstListing name ("lowest_price"))
          (c1StagesL category (if item_supports_float name then wear_bucket else none)) with
       | some l => l.price_usd
       | none => 0) ∧
    (fetch_snapshot_metrics env now name category wear_bucket).1.lowest_ask_id =
      (match firstHit (env.firstListing name ("lowest_price"))
          (c1StagesL category (if item_supports_float name then wear_bucket else none)) with
       | some l => l.id
       | none => some "") := by
  obtain ⟨h2, h3, h4⟩ := cascade_spec (env.firstListing name ("lowest_price")) category
    (if item_supports_float name then wear_bucket else none) (item_supports_float name)
    wear_bucket rfl
  simp only [fetch_snapshot_metrics]
  exact ⟨h2, by rw [h3], by rw [h3]⟩

/-- C4 amended: the `source` field is the label of the cascade stage
that produced the lowest-ask offer, drawn from
`"strict(name+cat+wear)"`, `"no_wear(name+cat)"`, `"no_cat(name+wear)"`,
`"name_only"`, `"n/a"`; and when no stage returns any offer the
snapshot has `lowest_ask = 0` and `source = "n/a"`. -/
theorem snapshot_source_label_set (env : Env) (now : Int) (name : String)
    (category : Option Int) (wear_bucket : Option (ℚ × ℚ)) :
    (fetch_snapshot_metrics env now name category wear_bucket).1.source =
      firstHitLabel (env.firstListing name ("lowest_price"))
        (c1StagesL category (if item_supports_float name then wear_bucket else none)) ∧
    ((fetch_snapshot_metrics env now name category wear_bucket).1.source = "strict(name+cat+wear)" ∨
     (fetch_snapshot_metrics env now name category wear_bucket).1.source = "no_wear(name+cat)" ∨
     (fetch_snapshot_metrics env now name category wear_bucket).1.source = "no_cat(name+wear)" ∨
     (fetch_snapshot_metrics env now name category wear_bucket).1.source = "name_only" ∨
     (fetch_snapshot_metrics env now name category wear_bucket).1.source = "n/a") ∧
    ((∀ c w, env.firstListing name ("lowest_price") c w = none) →
      (fetch_snapshot_metrics env now name category wear_bucket).1.lowest_ask = 0 ∧
      (fetch_snapshot_metrics env now name category wear_bucket).1.source = "n/a") := by
  obtain ⟨h2, h3, h4⟩ := cascade_spec (env.firstListing name ("lowest_price")) category
    (if item_supports_float name then wear_bucket else none) (item_supports_float name)
    wear_bucket rfl
  refine ⟨?_, ?_, ?_⟩
  · simp only [fetch_snapshot_metrics]
    exact h4
  · simp only [fetch_snapshot_metrics]
    rw [h4]
    set wE := (if item_supports_float name then wear_bucket else none) with hwE
    clear_value wE
    rcases firstHitLabel_mem (env.firstListing name ("lowest_price"))
        (c1StagesL category wE) with hm | hm
    · rw [hm]
      tauto
    · rcases category with _ | c <;> rcases wE with _ | w <;>
        simp [c1StagesL, c1TailL2, c1TailL3] at hm <;> tauto
  · intro hF
    constructor
    · simp only [fetch_snapshot_metrics]
      rw [h3, firstHit_of_allEmpty _ hF]
    · simp only [fetch_snapshot_metrics]
      rw [h4, firstHitLabel_of_allEmpty _ hF]

/-- An environment in which every listing query returns the same offer
and the other upstream calls fail. -/
def envAlwaysHit : Env :=
  ⟨fun _ _ _ _ => some ⟨some ("L1"), "X", 5, none, none, none⟩,
   fun _ _ => .error (), fun _ _ => .error ()⟩

/-- C4 counterexample: when the strict stage hits, the recorded source
is the full label `"strict(name+cat+wear)"`, which is none of the five
strings the claim lists. -/
theorem snapshot_source_label_cx :
    (fetch_snapshot_metrics envAlwaysHit 0 ("X") none none).1.source =
      "strict(name+cat+wear)" ∧
    ¬((fetch_snapshot_metrics envAlwaysHit 0 ("X") none none).1.source = "strict" ∨
      (fetch_snapshot_metrics envAlwaysHit 0 ("X") none none).1.source = "no_wear" ∨
      (fetch_snapshot_metrics envAlwaysHit 0 ("X") none none).1.source = "no_cat" ∨
      (fetch_snapshot_metrics envAlwaysHit 0 ("X") none none).1.source = "name_only" ∨
      (fetch_snapshot_metrics envAlwaysHit 0 ("X") none none).1.source = "n/a") := by
  refine ⟨by decide, by decide⟩

/-! ### Characterization of the 24h aggregation -/

/-- The full retention test of the aggregation loop: status, timestamp,
window, category/wear filters, and positive parsed price. -/
def keepEvent (wear_bucket : Option (ℚ × ℚ)) (category : Option Int)
    (now lb_seconds : Int) (e : SaleEvent) : Bool :=
  let state := strLower (e.state.getD "")
  if state ≠ "" ∧ state ≠ "sold" then false
  else
    match e.sold_at.or e.created_at with
    | none => false
    | some ts =>
      if ¬ts.hasTz then false
      else if now - ts.time > lb_seconds then false
      else
        let it := e.item.getD ⟨false, false, none⟩
        if ¬(catOkB category it ∧ wearOkB wear_bucket it) then false
        else
          match e.price with
          | none => false
          | some pv => if asPValInt pv 0 ≤ 0 then false else true

/-- The USD contribution of an event (its parsed price in cents / 100). -/
def eventUSD (e : SaleEvent) : ℚ :=
  match e.price with
  | some pv => (asPValInt pv 0 : ℚ) / 100
  | none => 0

theorem salesStep_eq (wb : Option (ℚ × ℚ)) (cat : Option Int) (now lb : Int)
    (acc : ℕ × ℚ) (e : SaleEvent) :
    salesStep wb cat now lb acc e =
      if keepEvent wb cat now lb e then (acc.1 + 1, acc.2 + eventUSD e) else acc := by
  unfold salesStep keepEvent eventUSD
  by_cases h1 : strLower (e.state.getD "") ≠ "" ∧ strLower (e.state.getD "") ≠ "sold"
  · simp [h1]
  · simp only [if_neg h1]
    cases hts : e.sold_at.or e.created_at with
    | none => simp
    | some ts =>
      by_cases htz : ts.hasTz
      · simp only [htz, not_true, if_neg, if_false]
        by_cases hlb : now - ts.time > lb
        · simp [hlb]
        · simp only [if_neg hlb]
          by_cases hf : catOkB cat (e.item.getD ⟨false, false, none⟩) ∧
              wearOkB wb (e.item.getD ⟨false, false, none⟩)
          · simp only [hf, not_true, if_neg, if_false]
            cases hp : e.price with
            | none => simp
            | some pv =>
              by_cases hpc : asPValInt pv 0 ≤ 0
              · simp [hpc]
              · simp [hpc]
          · simp [hf]
      · simp [htz]

theorem foldl_salesStep (wb : Option (ℚ × ℚ)) (cat : Option Int) (now lb : Int) :
    ∀ (events : List SaleEvent) (v : ℕ) (t : ℚ),
      events.foldl (salesStep wb cat now lb) (v, t) =
        (v + (events.filter (keepEvent wb cat now lb)).length,
         t + ((events.filter (keepEvent wb cat now lb)).map eventUSD).sum) := by
  intro events
  induction events with
  | nil => intro v t; simp
  | cons e es ih =>
    intro v t
    rw [List.foldl_cons, salesStep_eq]
    by_cases hk : keepEvent wb cat now lb e
    · rw [if_pos hk, ih]
      simp [List.filter_cons, hk]
      constructor
      · omega
      · ring
    · rw [if_neg hk, ih]
      simp [List.filter_cons, hk]

/-- The aggregation as a filter/length/sum over retained events. -/
theorem compute_sales_spec (name : String) (wb : Option (ℚ × ℚ))
    (cat : Option Int) (lbh now : Int) (events : List SaleEvent) :
    compute_sales_24h_metrics name wb cat lbh now events =
      (let keep := keepEvent (if item_supports_float name then wb else none) cat now (lbh * 3600)
       let kept := events.filter keep
       (kept.length,
        if kept.length = 0 then 0 else (kept.map eventUSD).sum / (kept.length : ℚ))) := by
  unfold compute_sales_24h_metrics
  cases events with
  | nil => simp
  | cons e es =>
    simp only [List.isEmpty_cons, if_neg]
    rw [foldl_salesStep]
    simp only [Nat.zero_add, zero_add]
    rcases h : ((e :: es).filter
        (keepEvent (if item_supports_float name then wb else none) cat now (lbh * 3600))).length with _ | n
    · simp [h]
    · simp [h]

/-- Retention as literally stated by claim C6: status (when present)
equal to `"sold"`, a timestamp resolving to an absolute time within the
lookback window, and the category and wear filters — with no condition
on the price field. -/
def retainedClaimC6 (wear_bucket : Option (ℚ × ℚ)) (category : Option Int)
    (now lb_seconds : Int) (e : SaleEvent) : Bool :=
  (let state := strLower (e.state.getD "")
   state == "" || state == "sold") &&
  (match e.sold_at.or e.created_at with
   | none => false
   | some ts => ts.hasTz && decide (now - ts.time ≤ lb_seconds)) &&
  (catOkB category (e.item.getD ⟨false, false, none⟩) &&
   wearOkB wear_bucket (e.item.getD ⟨false, false, none⟩))

/-- A sale event that passes every filter of the claim but carries no
price field. -/
def evNoPrice : SaleEvent := ⟨some ("sold"), some ⟨999996400, true⟩, none, none, none⟩

/-- C6 counterexample: an event retained in the claim's sense (status
`"sold"`, in-window timestamp, category and wear filters passing)
contributes nothing — the claim would require volume `1`, the code
returns `(0, 0)`, because the event has no price. -/
theorem sales24h_counts_only_priced_cx :
    retainedClaimC6 none none 1000000000 86400 evNoPrice = true ∧
    compute_sales_24h_metrics ("AK-47 | Redline") none none 24 1000000000 [evNoPrice] =
      (0, 0) := by
  refine ⟨by decide, by decide⟩

/-- C6 amended: volume is the count of retained events and the average
is the sum of retained prices (cents / 100) divided by that count (`0`
when the count is `0`), where retention additionally requires the price
field to be present, to parse as an integer, and to be positive; the
worked single-event example returns `(1, 25)`. -/
theorem sales24h_volume_and_average (name : String) (wb : Option (ℚ × ℚ))
    (cat : Option Int) (lbh now : Int) (events : List SaleEvent) :
    (compute_sales_24h_metrics name wb cat lbh now events).1 =
      (events.filter
        (keepEvent (if item_supports_float name then wb else none) cat now (lbh * 3600))).length ∧
    (compute_sales_24h_metrics name wb cat lbh now events).2 =
      (if (events.filter
            (keepEvent (if item_supports_float name then wb else none) cat now (lbh * 3600))).length = 0
       then 0
       else ((events.filter
              (keepEvent (if item_supports_float name then wb else none) cat now (lbh * 3600))).map
              eventUSD).sum /
            ((events.filter
              (keepEvent (if item_supports_float name then wb else none) cat now (lbh * 3600))).length : ℚ)) ∧
    compute_sales_24h_metrics ("AK-47 | Redline (Field-Tested)") (some (15/100, 38/100)) (some 1)
        24 1000000000
        [⟨some ("sold"), some ⟨999996400, true⟩, none,
          some ⟨false, false, some (2/10)⟩, some (.int 2500)⟩] = (1, 25) := by
  refine ⟨?_, ?_, ?_⟩
  · rw [compute_sales_spec]
  · rw [compute_sales_spec]
  · rw [compute_sales_spec]
    have hfl : item_supports_float ("AK-47 | Redline (Field-Tested)") = true := by decide
    have hwear : wearOkB (some ((15 : ℚ)/100, 38/100)) ⟨false, false, some (2/10)⟩ = true := by
      simp only [wearOkB]
      rw [decide_eq_true (show ((15 : ℚ)/100) ≤ 2/10 by norm_num),
        decide_eq_true (show ((2 : ℚ)/10) < 38/100 by norm_num)]
      rfl
    have hk : keepEvent (some ((15 : ℚ)/100, 38/100)) (some 1) 1000000000 (24 * 3600)
        ⟨some ("sold"), some ⟨999996400, true⟩, none, some ⟨false, false, some (2/10)⟩,
          some (.int 2500)⟩ = true := by
      simp only [keepEvent, Option.getD, Option.or]
      rw [if_neg (by decide)]
      rw [if_neg (by simp)]
      rw [if_neg (by decide : ¬((1000000000 : Int) - 999996400 > 24 * 3600))]
      rw [if_neg (not_not_intro
        ⟨show catOkB (some 1) ⟨false, false, some ((2 : ℚ)/10)⟩ = true from by decide, hwear⟩)]
      decide
    simp only [hfl, if_pos, List.filter, hk, List.length_cons, List.length_nil, List.map,
      List.sum_cons, List.sum_nil, eventUSD, asPValInt]
    norm_num

/-- Bad-price test of claim C10: the price field is missing, does not
parse as an integer (the parse default `0` applies), or is `≤ 0`. -/
def priceExcludedB (e : SaleEvent) : Bool :=
  match e.price with
  | none => true
  | some pv => decide (asPValInt pv 0 ≤ 0)

theorem keepEvent_false_of_bad_price (wb : Option (ℚ × ℚ)) (cat : Option Int)
    (now lb : Int) (e : SaleEvent) (hbad : priceExcludedB e = true) :
    keepEvent wb cat now lb e = false := by
  unfold keepEvent
  by_cases h1 : strLower (e.state.getD "") ≠ "" ∧ strLower (e.state.getD "") ≠ "sold"
  · simp [h1]
  · simp only [if_neg h1]
    cases hts : e.sold_at.or e.created_at with
    | none => simp
    | some ts =>
      by_cases htz : ts.hasTz
      · simp only [htz, not_true, if_neg, if_false]
        by_cases hlb : now - ts.time > lb
        · simp [hlb]
        · simp only [if_neg hlb]
          by_cases hf : catOkB cat (e.item.getD ⟨false, false, none⟩) ∧
              wearOkB wb (e.item.getD ⟨false, false, none⟩)
          · simp only [hf, not_true, if_neg, if_false]
            unfold priceExcludedB at hbad
            cases hp : e.price with
            | none => simp
            | some pv =>
              rw [hp] at hbad
              simp only [decide_eq_true_eq] at hbad
              simp [hbad]
          · simp [hf]
      · simp [htz]

/-- C10: an event that passes the status, timestamp-window, category
and wear filters is still excluded from both the volume count and the
price sum whenever its price field is missing, unparseable, or `≤ 0`
cents. -/
theorem sales24h_excludes_nonpositive_price (name : String) (wb : Option (ℚ × ℚ))
    (cat : Option Int) (lbh now : Int) (pre suf : List SaleEvent) (e : SaleEvent)
    (hfilters : retainedClaimC6 (if item_supports_float name then wb else none) cat now
      (lbh * 3600) e = true)
    (hbad : priceExcludedB e = true) :
    compute_sales_24h_metrics name wb cat lbh now (pre ++ e :: suf) =
      compute_sales_24h_metrics name wb cat lbh now (pre ++ suf) := by
  have hk := keepEvent_false_of_bad_price
    (if item_supports_float name then wb else none) cat now (lbh * 3600) e hbad
  rw [compute_sales_spec, compute_sales_spec]
  simp only [List.filter_append, List.filter_cons, hk]
  simp

/-- Witness for `sales24h_excludes_nonpositive_price`. -/
theorem sales24h_excludes_nonpositive_price_witness :
    compute_sales_24h_metrics ("AK-47 | Redline") none none 24 1000000000
        ([] ++ evNoPrice :: []) =
      compute_sales_24h_metrics ("AK-47 | Redline") none none 24 1000000000 ([] ++ []) :=
  sales24h_excludes_nonpositive_price ("AK-47 | Redline") none none 24 1000000000 [] []
    evNoPrice (by decide) (by decide)

/-! ### Highest-bid characterization -/

theorem le_foldl_max (a : Int) (l : List Int) : a ≤ l.foldl max a := by
  induction l generalizing a with
  | nil => simp
  | cons x xs ih => exact le_trans (le_max_left a x) (ih (max a x))

theorem mem_le_foldl_max (a b : Int) (l : List Int) (h : b ∈ l) : b ≤ l.foldl max a := by
  induction l generalizing a with
  | nil => cases h
  | cons x xs ih =>
    rcases List.mem_cons.mp h with rfl | h2
    · exact le_trans (le_max_right a b) (le_foldl_max _ xs)
    · exact ih (max a x) h2

theorem foldl_max_mem (a : Int) (l : List Int) : l.foldl max a = a ∨ l.foldl max a ∈ l := by
  induction l generalizing a with
  | nil => exact Or.inl rfl
  | cons x xs ih =>
    rw [List.foldl_cons]
    rcases ih (max a x) with h | h
    · rcases max_choice a x with hm | hm
      · exact Or.inl (h.trans hm)
      · exact Or.inr (by rw [h.trans hm]; exact List.mem_cons_self x xs)
    · exact Or.inr (List.mem_cons_of_mem x h)

theorem int_max?_spec (l : List Int) (t : Int) (h : l.max? = some t) :
    t ∈ l ∧ ∀ b ∈ l, b ≤ t := by
  cases l with
  | nil => cases h
  | cons x xs =>
    rw [List.max?_cons'] at h
    obtain rfl : t = xs.foldl max x := by exact (Option.some_inj.mp h).symm
    constructor
    · rcases foldl_max_mem x xs with h2 | h2
      · rw [h2]; exact List.mem_cons_self x xs
      · exact List.mem_cons_of_mem x h2
    · intro b hb
      rcases List.mem_cons.mp hb with rfl | hb
      · exact le_foldl_max b xs
      · exact mem_le_foldl_max x b xs hb

/-- The bid fields computed from one buy-order fetch outcome: absent on
failure or when no order passes the price type check, otherwise the
pair produced by `highest_bid_from_orders`. -/
def expectedBid (r : Except Unit (List Order)) : Option ℚ × Option Int :=
  match r with
  | .error _ => (none, none)
  | .ok os =>
    match highest_bid_from_orders os with
    | none => (none, none)
    | some bq => (some bq.1, some bq.2)

theorem highest_bid_none_iff (os : List Order) :
    highest_bid_from_orders os = none ↔ os.filter (fun o => pvalTypeOk o.price) = [] := by
  unfold highest_bid_from_orders
  constructor
  · intro h
    by_cases he : os.isEmpty
    · rw [List.isEmpty_iff.mp he]; rfl
    · rw [if_neg he] at h
      by_cases hc : (os.filter (fun o => pvalTypeOk o.price)).isEmpty
      · exact List.isEmpty_iff.mp hc
      · rw [if_neg hc] at h
        dsimp only [] at h
        exfalso
        rcases hm : ((os.filter (fun o => pvalTypeOk o.price)).map
            (fun o => asOptPValInt o.price 0)).max? with _ | t
        · rw [List.max?_eq_none_iff, List.map_eq_nil_iff] at hm
          exact hc (List.isEmpty_iff.mpr hm)
        · rw [hm] at h
          dsimp only [] at h
          cases h
  · intro h
    by_cases he : os.isEmpty
    · rw [if_pos he]
    · rw [if_neg he, h]
      rfl

theorem highest_bid_some_spec (os : List Order) (b : ℚ) (q : Int)
    (h : highest_bid_from_orders os = some (b, q)) :
    (∃ o ∈ os.filter (fun o => pvalTypeOk o.price), (asOptPValInt o.price 0 : ℚ) = b * 100) ∧
    (∀ o ∈ os.filter (fun o => pvalTypeOk o.price), (asOptPValInt o.price 0 : ℚ) ≤ b * 100) ∧
    q = (((os.filter (fun o => pvalTypeOk o.price)).filter
          (fun o => asOptPValInt o.price 0 == (b * 100 : ℚ).num)).map
          (fun o => asOptPValInt (some (o.qty.getD (.int 0))) 0)).sum := by
  unfold highest_bid_from_orders at h
  by_cases he : os.isEmpty
  · rw [if_pos he] at h; cases h
  rw [if_neg he] at h
  by_cases hc : (os.filter (fun o => pvalTypeOk o.price)).isEmpty
  · rw [if_pos hc] at h; cases h
  rw [if_neg hc] at h
  dsimp only [] at h
  rcases hm : ((os.filter (fun o => pvalTypeOk o.price)).map
      (fun o => asOptPValInt o.price 0)).max? with _ | t
  · rw [hm] at h
    dsimp only [] at h
    cases h
  rw [hm] at h
  dsimp only [] at h
  rw [Option.some_inj, Prod.mk.injEq] at h
  obtain ⟨hb, hq⟩ := h
  have hbt : (b * 100 : ℚ) = t := by
    rw [← hb]; field_simp
  have hbtn : (b * 100 : ℚ).num = t := by rw [hbt]; simp
  obtain ⟨hmem, hle⟩ := int_max?_spec _ t hm
  refine ⟨?_, ?_, ?_⟩
  · obtain ⟨o, ho, hto⟩ := List.mem_map.mp hmem
    exact ⟨o, ho, by rw [hto, hbt]⟩
  · intro o ho
    have := hle _ (List.mem_map.mpr ⟨o, ho, rfl⟩)
    rw [hbt]
    exact_mod_cast this
  · rw [← hq, hbtn]

/-- The bid fields the resolver derives from a cascade outcome: absent
unless the winning offer carries a non-empty id, otherwise the outcome
of the (fallible) buy-order fetch. -/
def bidFromLowest (env : Env) (lw : Option Listing) : Option ℚ × Option Int :=
  match lw with
  | some l =>
    match l.id with
    | some lid => if lid = "" then (none, none) else expectedBid (env.buyOrders lid 10)
    | none => (none, none)
  | none => (none, none)

theorem fsm_bid_eq (env : Env) (now : Int) (name : String)
    (category : Option Int) (wear_bucket : Option (ℚ × ℚ)) :
    (fetch_snapshot_metrics env now name category wear_bucket).1.highest_bid =
      (bidFromLowest env (firstHit (env.firstListing name ("lowest_price"))
        (c1StagesL category (if item_supports_float name then wear_bucket else none)))).1 ∧
    (fetch_snapshot_metrics env now name category wear_bucket).1.highest_bid_qty =
      (bidFromLowest env (firstHit (env.firstListing name ("lowest_price"))
        (c1StagesL category (if item_supports_float name then wear_bucket else none)))).2 := by
  obtain ⟨h2, h3, h4⟩ := cascade_spec (env.firstListing name ("lowest_price")) category
    (if item_supports_float name then wear_bucket else none) (item_supports_float name)
    wear_bucket rfl
  simp only [fetch_snapshot_metrics]
  rw [h3]
  generalize firstHit (env.firstListing name ("lowest_price"))
      (c1StagesL category (if item_supports_float name then wear_bucket else none)) = lw
  cases lw with
  | none => exact ⟨rfl, rfl⟩
  | some l =>
    obtain ⟨oid, mhn, pu, fv, st, ps⟩ := l
    cases oid with
    | none => exact ⟨rfl, rfl⟩
    | some lid =>
      simp only [bidFromLowest]
      by_cases hempty : lid = ""
      · simp [hempty]
      · simp only [if_neg hempty, expectedBid]
        cases env.buyOrders lid 10 with
        | error e => exact ⟨rfl, rfl⟩
        | ok os =>
          dsimp only
          cases highest_bid_from_orders os with
          | none => exact ⟨rfl, rfl⟩
          | some bq => exact ⟨rfl, rfl⟩

/-- Snapshot agreement on everything except the two bid fields
(including the listing-query and history-call traces). -/
def agreesExceptBid (a b : Snap × Trace) : Prop :=
  a.1.source = b.1.source ∧ a.1.lowest_ask = b.1.lowest_ask ∧
  a.1.lowest_ask_id = b.1.lowest_ask_id ∧ a.1.vol24h = b.1.vol24h ∧
  a.1.asp24h = b.1.asp24h ∧ a.1.used_category = b.1.used_category ∧
  a.1.used_wear = b.1.used_wear ∧ a.1.is_floatable = b.1.is_floatable ∧
  a.1.used_name_variant = b.1.used_name_variant ∧
  a.2.listings = b.2.listings ∧ a.2.history = b.2.history

theorem fsm_frame_orders (env env2 : Env) (h1 : env2.firstListing = env.firstListing)
    (h3 : env2.salesHistory = env.salesHistory) (now : Int) (name : String)
    (category : Option Int) (wear_bucket : Option (ℚ × ℚ)) :
    agreesExceptBid (fetch_snapshot_metrics env2 now name category wear_bucket)
      (fetch_snapshot_metrics env now name category wear_bucket) := by
  unfold agreesExceptBid
  simp only [fetch_snapshot_metrics]
  rw [h1, h3]
  simp

/-- A price field holding a valid numeric value, in the sense claim C8
reads it: an int, a float, or a string that actually parses as an
integer. -/
def validNumericPrice : Option PVal → Bool
  | some (.int _) => true
  | some (.float _) => true
  | some (.str (some _)) => true
  | _ => false

/-- One buy order whose price is a string that does not parse. -/
def ordersBadPrice : List Order := [⟨some (.str none), some (.int 7)⟩]

/-- Environment: every listing query returns an offer with id `"L1"`,
its buy orders are `ordersBadPrice`, history fails. -/
def envBadOrders : Env :=
  ⟨fun _ _ _ _ => some ⟨some ("L1"), "X", 5, none, none, none⟩,
   fun _ _ => .ok ordersBadPrice, fun _ _ => .error ()⟩

/-- Like `envBadOrders` but the buy-order fetch raises. -/
def envBadOrdersErr : Env :=
  ⟨envBadOrders.firstListing, fun _ _ => .error (), envBadOrders.salesHistory⟩

/-- C8 counterexample: no order carries a valid numeric price — the
only price is an unparseable string — yet the snapshot reports a
highest bid of `$0` with quantity `7` rather than leaving the bid
absent. -/
theorem snapshot_highest_bid_cx :
    ordersBadPrice.all (fun o => !(validNumericPrice o.price)) = true ∧
    (fetch_snapshot_metrics envBadOrders 0 ("X") none none).1.highest_bid = some 0 ∧
    (fetch_snapshot_metrics envBadOrders 0 ("X") none none).1.highest_bid_qty = some 7 := by
  refine ⟨by decide, ?_, ?_⟩
  · rw [(fsm_bid_eq envBadOrders 0 ("X") none none).1]
    show some (((0 : Int) : ℚ) / 100) = some 0
    norm_num
  · rw [(fsm_bid_eq envBadOrders 0 ("X") none none).2]
    decide

/-- C8 amended: when the cascade's lowest-ask offer carries a non-empty
id, the snapshot's bid fields come from the buy-order fetch — on
failure both are absent (the error is swallowed) and no other snapshot
field is affected; on success the bid is absent exactly when no order's
price field is of int/float/string type, and otherwise the highest bid
`b` satisfies: `b * 100` is the maximum parsed price over the
type-accepted orders (unparseable strings parsing to `0` cents), and
the quantity is the sum of parsed quantities over the type-accepted
orders whose parsed price ties with that maximum. -/
theorem snapshot_highest_bid_rules (env : Env) (now : Int) (name : String)
    (category : Option Int) (wear_bucket : Option (ℚ × ℚ)) :
    ((fetch_snapshot_metrics env now name category wear_bucket).1.highest_bid =
       (bidFromLowest env (firstHit (env.firstListing name ("lowest_price"))
         (c1StagesL category (if item_supports_float name then wear_bucket else none)))).1 ∧
     (fetch_snapshot_metrics env now name category wear_bucket).1.highest_bid_qty =
       (bidFromLowest env (firstHit (env.firstListing name ("lowest_price"))
         (c1StagesL category (if item_supports_float name then wear_bucket else none)))).2) ∧
    (∀ os : List Order,
      highest_bid_from_orders os = none ↔ os.filter (fun o => pvalTypeOk o.price) = []) ∧
    (∀ (os : List Order) (b : ℚ) (q : Int), highest_bid_from_orders os = some (b, q) →
      (∃ o ∈ os.filter (fun o => pvalTypeOk o.price), (asOptPValInt o.price 0 : ℚ) = b * 100) ∧
      (∀ o ∈ os.filter (fun o => pvalTypeOk o.price), (asOptPValInt o.price 0 : ℚ) ≤ b * 100) ∧
      q = (((os.filter (fun o => pvalTypeOk o.price)).filter
            (fun o => asOptPValInt o.price 0 == (b * 100 : ℚ).num)).map
            (fun o => asOptPValInt (some (o.qty.getD (.int 0))) 0)).sum) ∧
    (∀ env2 : Env, env2.firstListing = env.firstListing →
      env2.salesHistory = env.salesHistory →
      agreesExceptBid (fetch_snapshot_metrics env2 now name category wear_bucket)
        (fetch_snapshot_metrics env now name category wear_bucket)) :=
  ⟨fsm_bid_eq env now name category wear_bucket,
   fun os => highest_bid_none_iff os,
   fun os b q h => highest_bid_some_spec os b q h,
   fun env2 ha hb => fsm_frame_orders env env2 ha hb now name category wear_bucket⟩

/-- Witness for `snapshot_highest_bid_rules`: a failing buy-order fetch
leaves every non-bid snapshot field exactly as with a succeeding one. -/
theorem snapshot_highest_bid_rules_witness :
    agreesExceptBid (fetch_snapshot_metrics envBadOrdersErr 0 ("X") none none)
      (fetch_snapshot_metrics envBadOrders 0 ("X") none none) :=
  (snapshot_highest_bid_rules envBadOrders 0 ("X") none none).2.2.2 envBadOrdersErr rfl rfl

/-! ### History delegation (C9) -/

/-- Snapshot agreement on everything except the two 24h sales fields
(including the listing-query and buy-order traces). -/
def agreesExceptSales (a b : Snap × Trace) : Prop :=
  a.1.source = b.1.source ∧ a.1.lowest_ask = b.1.lowest_ask ∧
  a.1.lowest_ask_id = b.1.lowest_ask_id ∧ a.1.highest_bid = b.1.highest_bid ∧
  a.1.highest_bid_qty = b.1.highest_bid_qty ∧ a.1.used_category = b.1.used_category ∧
  a.1.used_wear = b.1.used_wear ∧ a.1.is_floatable = b.1.is_floatable ∧
  a.1.used_name_variant = b.1.used_name_variant ∧
  a.2.listings = b.2.listings ∧ a.2.orders = b.2.orders

theorem fsm_frame_history (env env2 : Env) (h1 : env2.firstListing = env.firstListing)
    (h2 : env2.buyOrders = env.buyOrders) (now : Int) (name : String)
    (category : Option Int) (wear_bucket : Option (ℚ × ℚ)) :
    agreesExceptSales (fetch_snapshot_metrics env2 now name category wear_bucket)
      (fetch_snapshot_metrics env now name category wear_bucket) := by
  unfold agreesExceptSales
  simp only [fetch_snapshot_metrics]
  rw [h1, h2]
  simp

/-- C9: the history aggregation is always invoked with the originally
requested category and — only if the name is floatable — the originally
requested wear range, never the relaxed cascade filters; a failing
history fetch yields `vol24h = 0`, `asp24h = 0` and leaves every other
snapshot field unaffected. -/
theorem snapshot_history_rules (env : Env) (now : Int) (name : String)
    (category : Option Int) (wear_bucket : Option (ℚ × ℚ)) :
    (fetch_snapshot_metrics env now name category wear_bucket).2.history =
      [(name, (if item_supports_float name then wear_bucket else none), category)] ∧
    ((fetch_snapshot_metrics env now name category wear_bucket).1.vol24h,
     (fetch_snapshot_metrics env now name category wear_bucket).1.asp24h) =
      (match env.salesHistory name 400 with
       | .error _ => ((0 : ℕ), (0 : ℚ))
       | .ok events => compute_sales_24h_metrics name
           (if item_supports_float name then wear_bucket else none) category 24 now events) ∧
    (∀ env2 : Env, env2.firstListing = env.firstListing →
      env2.buyOrders = env.buyOrders →
      agreesExceptSales (fetch_snapshot_metrics env2 now name category wear_bucket)
        (fetch_snapshot_metrics env now name category wear_bucket)) := by
  refine ⟨rfl, ?_, fun env2 ha hb => fsm_frame_history env env2 ha hb now name category wear_bucket⟩
  simp only [fetch_snapshot_metrics]

/-- `envBadOrders` with a succeeding (empty) history fetch. -/
def envHistOk : Env :=
  ⟨envBadOrders.firstListing, envBadOrders.buyOrders, fun _ _ => .ok []⟩

/-- Witness for `snapshot_history_rules`: a failing history fetch
leaves every non-sales snapshot field exactly as with a succeeding one. -/
theorem snapshot_history_rules_witness :
    agreesExceptSales (fetch_snapshot_metrics envHistOk 0 ("X") none none)
      (fetch_snapshot_metrics envBadOrders 0 ("X") none none) :=
  (snapshot_history_rules envBadOrders 0 ("X") none none).2.2 envHistOk rfl rfl

/-! ### Alternate-name retry (C3) -/

/-- The Market Data Source never reports a negative ask price. -/
def EnvPriceNonneg (env : Env) : Prop :=
  ∀ n s c w l, env.firstListing n s c w = some l → 0 ≤ l.price_usd

theorem firstHit_some {F : Option Int → Option (ℚ × ℚ) → Option Listing}
    {l : Listing} : ∀ {L : List StageL}, firstHit F L = some l → ∃ c w, F c w = some l := by
  intro L
  induction L with
  | nil => intro h; cases h
  | cons s ss ih =>
    intro h
    cases hF : F s.1.1 s.1.2 with
    | some l2 =>
      refine ⟨s.1.1, s.1.2, ?_⟩
      rw [hF]
      simp only [firstHit, hF] at h
      exact h
    | none =>
      simp only [firstHit, hF] at h
      exact ih h

theorem fsm_ask_nonneg (env : Env) (hp : EnvPriceNonneg env) (now : Int) (name : String)
    (category : Option Int) (wear_bucket : Option (ℚ × ℚ)) :
    0 ≤ (fetch_snapshot_metrics env now name category wear_bucket).1.lowest_ask := by
  obtain ⟨h2, h3, h4⟩ := cascade_spec (env.firstListing name ("lowest_price")) category
    (if item_supports_float name then wear_bucket else none) (item_supports_float name)
    wear_bucket rfl
  simp only [fetch_snapshot_metrics]
  rw [h3]
  cases hl : firstHit (env.firstListing name ("lowest_price"))
      (c1StagesL category (if item_supports_float name then wear_bucket else none)) with
  | none => exact le_refl 0
  | some l =>
    obtain ⟨c, w, hF⟩ := firstHit_some hl
    exact hp _ _ _ _ _ hF

/-- C3: the alternate-name retry triggers exactly when the primary
snapshot has zero lowest ask and zero 24h volume and the requested
category is normal or stattrak; it rebuilds the name with the opposite
of normal/stattrak (souvenir and unset categories are never retried),
queries with the category filter set to `none`, returns the alternate
snapshot annotated with the name variant used when its lowest ask or
24h volume is non-zero, and otherwise returns the unchanged primary
snapshot. -/
theorem alternate_name_retry (env : Env) (now : Int) (base_name : String)
    (wear_key : Option WearKey) (category_key : Option CategoryKey)
    (hp : EnvPriceNonneg env) :
    (altCategoryKey (some .normal) = some .stattrak ∧
     altCategoryKey (some .stattrak) = some .normal ∧
     altCategoryKey (some .souvenir) = none ∧
     altCategoryKey (none : Option CategoryKey) = none) ∧
    (let name_primary := build_market_hash_name base_name wear_key category_key
     let cat_primary := category_key.map categoryCode
     let wear_bucket : Option (ℚ × ℚ) := bpWearBucket name_primary wear_key
     let snapP := (fetch_snapshot_metrics env now name_primary cat_primary wear_bucket).1
     let res := fetch_snapshot_by_params env now base_name wear_key category_key
     (¬(snapP.lowest_ask = 0 ∧ snapP.vol24h = 0 ∧
        (category_key = some .normal ∨ category_key = some .stattrak)) →
       res = (snapP, [(name_primary, cat_primary, wear_bucket)])) ∧
     ((snapP.lowest_ask = 0 ∧ snapP.vol24h = 0 ∧
        (category_key = some .normal ∨ category_key = some .stattrak)) →
       ∀ alt_ck, altCategoryKey category_key = some alt_ck →
       (let name_alt := build_market_hash_name base_name wear_key (some alt_ck)
        let wear_bucket_alt := if item_supports_float name_alt then wear_bucket else none
        let snapA := (fetch_snapshot_metrics env now name_alt none wear_bucket_alt).1
        res.2 = [(name_primary, cat_primary, wear_bucket), (name_alt, none, wear_bucket_alt)] ∧
        (¬(snapA.lowest_ask = 0 ∧ snapA.vol24h = 0) →
          res.1 = { snapA with used_name_variant := some name_alt }) ∧
        ((snapA.lowest_ask = 0 ∧ snapA.vol24h = 0) → res.1 = snapP)))) := by
  refine ⟨⟨rfl, rfl, rfl, rfl⟩, ?_⟩
  dsimp only
  simp only [fetch_snapshot_by_params]
  have hnnP := fsm_ask_nonneg env hp now (build_market_hash_name base_name wear_key category_key)
    (category_key.map categoryCode)
    (bpWearBucket (build_market_hash_name base_name wear_key category_key) wear_key)
  by_cases hcond :
      (fetch_snapshot_metrics env now (build_market_hash_name base_name wear_key category_key)
        (category_key.map categoryCode)
        (bpWearBucket (build_market_hash_name base_name wear_key category_key)
          wear_key)).1.lowest_ask > 0 ∨
      (fetch_snapshot_metrics env now (build_market_hash_name base_name wear_key category_key)
        (category_key.map categoryCode)
        (bpWearBucket (build_market_hash_name base_name wear_key category_key)
          wear_key)).1.vol24h > 0
  · rw [if_pos hcond]
    constructor
    · intro _
      rfl
    · intro htrig _alt_ck _halt
      exfalso
      rcases hcond with h | h
      · rw [htrig.1] at h
        exact lt_irrefl 0 h
      · rw [htrig.2.1] at h
        exact lt_irrefl 0 h
  · rw [if_neg hcond]
    push_neg at hcond
    have hzero1 := le_antisymm hcond.1 hnnP
    have hzero2 := Nat.le_zero.mp hcond.2
    rcases category_key with _ | ck
    · dsimp only [altCategoryKey]
      exact ⟨fun _ => rfl, fun htrig alt_ck halt => absurd halt (by simp)⟩
    · cases ck with
      | souvenir =>
        dsimp only [altCategoryKey]
        exact ⟨fun _ => rfl, fun htrig alt_ck halt => absurd halt (by simp)⟩
      | normal =>
        dsimp only [altCategoryKey]
        refine ⟨fun hnt => absurd ⟨hzero1, hzero2, Or.inl rfl⟩ hnt, ?_⟩
        intro htrig alt_ck halt
        obtain rfl := (Option.some_inj.mp halt).symm
        set NA := build_market_hash_name base_name wear_key (some CategoryKey.stattrak) with hNA
        set WBA := (if item_supports_float NA then
          bpWearBucket (build_market_hash_name base_name wear_key (some CategoryKey.normal))
            wear_key else none) with hWBA
        have hnnA := fsm_ask_nonneg env hp now NA none WBA
        refine ⟨?_, ?_, ?_⟩
        · by_cases hca : (fetch_snapshot_metrics env now NA none WBA).1.lowest_ask > 0 ∨
              (fetch_snapshot_metrics env now NA none WBA).1.vol24h > 0
          · rw [if_pos hca]
          · rw [if_neg hca]
        · intro hne
          have hca : (fetch_snapshot_metrics env now NA none WBA).1.lowest_ask > 0 ∨
              (fetch_snapshot_metrics env now NA none WBA).1.vol24h > 0 := by
            by_contra hno
            push_neg at hno
            exact hne ⟨le_antisymm hno.1 hnnA, Nat.le_zero.mp hno.2⟩
          rw [if_pos hca]
        · intro hz
          rw [if_neg ?hcneg]
          case hcneg =>
            rintro (h | h)
            · rw [hz.1] at h
              exact lt_irrefl 0 h
            · rw [hz.2] at h
              exact lt_irrefl 0 h
      | stattrak =>
        dsimp only [altCategoryKey]
        refine ⟨fun hnt => absurd ⟨hzero1, hzero2, Or.inr rfl⟩ hnt, ?_⟩
        intro htrig alt_ck halt
        obtain rfl := (Option.some_inj.mp halt).symm
        set NA := build_market_hash_name base_name wear_key (some CategoryKey.normal) with hNA
        set WBA := (if item_supports_float NA then
          bpWearBucket (build_market_hash_name base_name wear_key (some CategoryKey.stattrak))
            wear_key else none) with hWBA
        have hnnA := fsm_ask_nonneg env hp now NA none WBA
        refine ⟨?_, ?_, ?_⟩
        · by_cases hca : (fetch_snapshot_metrics env now NA none WBA).1.lowest_ask > 0 ∨
              (fetch_snapshot_metrics env now NA none WBA).1.vol24h > 0
          · rw [if_pos hca]
          · rw [if_neg hca]
        · intro hne
          have hca : (fetch_snapshot_metrics env now NA none WBA).1.lowest_ask > 0 ∨
              (fetch_snapshot_metrics env now NA none WBA).1.vol24h > 0 := by
            by_contra hno
            push_neg at hno
            exact hne ⟨le_antisymm hno.1 hnnA, Nat.le_zero.mp hno.2⟩
          rw [if_pos hca]
        · intro hz
          rw [if_neg ?hcneg2]
          case hcneg2 =>
            rintro (h | h)
            · rw [hz.1] at h
              exact lt_irrefl 0 h
            · rw [hz.2] at h
              exact lt_irrefl 0 h

/-- An environment in which every upstream call returns nothing. -/
def envEmpty : Env :=
  ⟨fun _ _ _ _ => none, fun _ _ => .error (), fun _ _ => .error ()⟩

/-- Witness for `snapshot_source_label_set`: with no offers anywhere,
the snapshot degrades to a zero ask and source `"n/a"`. -/
theorem snapshot_source_label_set_witness :
    (fetch_snapshot_metrics envEmpty 0 ("X") none none).1.lowest_ask = 0 ∧
    (fetch_snapshot_metrics envEmpty 0 ("X") none none).1.source = "n/a" :=
  (snapshot_source_label_set envEmpty 0 ("X") none none).2.2 (fun c w => rfl)

/-- Witness for `alternate_name_retry`: with an empty market and a
StatTrak request, both the primary query and the alternate
(normal-variant, category-relaxed) query are issued. -/
theorem alternate_name_retry_witness :
    (fetch_snapshot_by_params envEmpty 0 ("AK-47 | Redline") none (some .stattrak)).2 =
      [(build_market_hash_name ("AK-47 | Redline") none (some .stattrak),
        Option.map categoryCode (some CategoryKey.stattrak),
        bpWearBucket (build_market_hash_name ("AK-47 | Redline") none (some .stattrak)) none),
       (build_market_hash_name ("AK-47 | Redline") none (some .normal), none,
        if item_supports_float (build_market_hash_name ("AK-47 | Redline") none (some .normal))
        then bpWearBucket (build_market_hash_name ("AK-47 | Redline") none (some .stattrak)) none
        else none)] := by
  have h := alternate_name_retry envEmpty 0 ("AK-47 | Redline") none (some .stattrak)
    (fun n s c w l hl => nomatch hl)
  exact (h.2.2 ⟨rfl, rfl, Or.inr rfl⟩ .normal rfl).1

end CS2Arb
